import Mathlib

/-!
Verification of the catalog-app-server repository.

The development shallowly embeds the request handlers and the batch client of
the repository:

* the string helpers of `batch-upload.js` (`extractSapIds`, `getContentType`,
  `isSupportedImageFormat`), modelled over `List Char`;
* the `POST /api/upload` orchestrator of the articles variant (the server file
  with the `articles`/`images` SQLite tables), as a pure function from a
  request and an environment describing the external stores to a response, an
  event trace, and the list of committed image rows;
* the multer upload pipeline (fileFilter and size limit) that runs before the
  orchestrator;
* the two byte-serving endpoints (`GET /api/serve-image/:uuid` of the articles
  variant and `GET /serve-image/:imageId` of the imageid variant);
* the `POST /upload-image/:sap?` endpoint of the imageid variant and the batch
  upload driver `processImageFolder` composed with it.

`uuidv4` is modelled by a fresh `Nat` counter: the property the code relies on
is that every generated token is new, which the counter realizes exactly.  An
S3 object key `` `${uuid}${ext}` `` is modelled as the pair of the fresh token
and the extension string.
-/

namespace CatalogApp

/-! ### JavaScript string primitives, over `List Char`

`trimChars` models `String.prototype.trim` (restricted to the ASCII whitespace
the repository's inputs can contain), `splitOnChar` models
`String.prototype.split` with a one-character separator (including the
behaviour that splitting the empty string yields `[""]`). -/

def wsChar (c : Char) : Bool := c.isWhitespace

def trimChars (cs : List Char) : List Char :=
  ((cs.dropWhile wsChar).reverse.dropWhile wsChar).reverse

def splitOnChar (sep : Char) : List Char → List (List Char)
  | [] => [[]]
  | c :: rest =>
    let r := splitOnChar sep rest
    if c = sep then [] :: r
    else
      match r with
      | [] => [[c]]
      | h :: t => (c :: h) :: t

/-- `path.parse(filename)` splits a basename into `name` and `ext`: the `ext`
starts at the last dot, unless that dot is the first character (hidden file),
in which case the extension is empty.  Returns `(name, ext)`. -/
def splitStemExt (cs : List Char) : List Char × List Char :=
  let r := cs.reverse
  let pre := r.takeWhile (fun c => !(c = '.'))
  match r.dropWhile (fun c => !(c = '.')) with
  | [] => (cs, [])
  | _ :: restAfterDot =>
    if restAfterDot.isEmpty then (cs, [])
    else (restAfterDot.reverse, '.' :: pre.reverse)

/-- `path.parse(filename).name`: the basename without its extension. -/
def stemChars (cs : List Char) : List Char := (splitStemExt cs).1

/-- `path.extname(filename)`: the extension including the leading dot. -/
def extnameOf (s : String) : String := String.mk (splitStemExt s.toList).2

def jsTrim (s : String) : String := String.mk (trimChars s.toList)

def lowerStr (s : String) : String := String.mk (s.toList.map Char.toLower)

/-! ### `extractSapIds` (batch-upload.js)

```js
function extractSapIds(filename) {
    const nameWithoutExt = path.parse(filename).name;
    const sapIds = nameWithoutExt.split('-')
        .map(part => part.trim())
        .filter(part => /^\d+$/.test(part)); // Only numeric values
    return sapIds;
}
```
-/

def numericPart (p : List Char) : Bool := !p.isEmpty && p.all Char.isDigit

def extractSapIds (filename : String) : List String :=
  (((splitOnChar '-' (stemChars filename.toList)).map trimChars).filter
    numericPart).map String.mk

example : extractSapIds "123-456.png" = ["123", "456"] := by decide
example : extractSapIds "no-ids-here.png" = [] := by decide
example : extractSapIds "1-2.png" = ["1", "2"] := by decide
example : extractSapIds "bad.png" = [] := by decide

/-! ### The `POST /api/upload` orchestrator (articles variant)

The handler receives a multipart file and either an `articleIds` field (array
or comma-separated string) or a single `articleId` field.  It generates one
storage key, writes the payload to S3 once, upserts each article
(`INSERT OR IGNORE`), then inserts one row into `images` per article id, every
row carrying the same S3 key and a fresh per-row uuid.  `Promise.all` over the
row inserts means: every insert is issued; if any fails the handler answers
with the single error body `Failed to save image metadata`, but the inserts
that succeeded stay committed (SQLite runs them independently). -/

structure UploadFile where
  originalname : String
  mimetype : String
  size : Nat
deriving DecidableEq

/-- The shape of the `articleIds` body field: absent, an array, or a string.
An empty string is falsy in JS, which the handler's `if (articleIds)` test
observes; an empty array is truthy. -/
inductive IdsField where
  | absent
  | arr (ids : List String)
  | str (s : String)
deriving DecidableEq

structure UploadReq where
  file : Option UploadFile
  articleIds : IdsField
  articleId : Option String
deriving DecidableEq

def idsFieldTruthy : IdsField → Bool
  | .absent => false
  | .arr _ => true
  | .str s => !s.isEmpty

/-- Lines 64–81 of the handler: normalise the request's identifier fields into
a list.  The array branch keeps the original (untrimmed) elements, filtering
only on truthiness of the element and of its trim; the string branch splits on
commas, trims, and drops empties; the single-id fallback trims. -/
def articleIdList (req : UploadReq) : List String :=
  if idsFieldTruthy req.articleIds then
    match req.articleIds with
    | .arr ids => ids.filter (fun id => !id.isEmpty && !(jsTrim id).isEmpty)
    | .str s =>
      (((splitOnChar ',' s.toList).map trimChars).filter
        (fun p => !p.isEmpty)).map String.mk
    | .absent => []
  else
    match req.articleId with
    | some a => if a.isEmpty then [] else [jsTrim a]
    | none => []

example : articleIdList ⟨none, .str "A,B,C", none⟩ = ["A", "B", "C"] := by decide
example : articleIdList ⟨none, .str "A,A", none⟩ = ["A", "A"] := by decide
example : articleIdList ⟨none, .str " A , ,B ", none⟩ = ["A", "B"] := by decide
example : articleIdList ⟨none, .str "", some " x "⟩ = ["x"] := by decide

/-- External-store behaviour an upload call runs against: whether the single
S3 put succeeds, and whether the `articles` upsert / `images` insert for a
given article id succeeds. -/
structure Env where
  s3Ok : Bool
  upsertOk : String → Bool
  insertOk : String → Bool

/-- Calls the handler issues against the two gateways.  The S3 key
`` `${baseUuid}${fileExtension}` `` is modelled as the pair of the fresh
token and the extension. -/
inductive Ev where
  | s3Put (base : Nat) (ext : String)
  | upsertArticle (artId : String)
  | insertImage (uuid : Nat) (artId : String) (base : Nat) (ext : String)
deriving DecidableEq

def isS3Put : Ev → Bool
  | .s3Put _ _ => true
  | _ => false

def isInsertEv : Ev → Bool
  | .insertImage _ _ _ _ => true
  | _ => false

/-- A metadata-store write: anything that is not the object-store put. -/
def isMetaEv (e : Ev) : Bool := !isS3Put e

/-- A committed row of the `images` table. -/
structure ImageRecord where
  uuid : Nat
  articleId : String
  originalName : String
  s3Base : Nat
  ext : String
  contentType : String
  size : Nat
deriving DecidableEq

inductive UploadResp where
  | err (status : Nat) (msg : String)
  | ok (s3Base : Nat) (ext : String) (articleIds : List String)
       (inserted : List (Nat × String))
deriving DecidableEq

structure UploadOutcome where
  resp : UploadResp
  trace : List Ev
  db : List ImageRecord
deriving DecidableEq

def mkUpsertEvs (ids : List String) : List Ev := ids.map Ev.upsertArticle

/-- The insert issued for the element at offset `i` of the id list uses the
fresh uuid `i + 1` (token `0` is the storage key's base uuid). -/
def mkInsertEvs (ext : String) : List String → Nat → List Ev
  | [], _ => []
  | a :: rest, i => Ev.insertImage (i + 1) a 0 ext :: mkInsertEvs ext rest (i + 1)

/-- The rows that end up committed: one per id whose insert the store
accepted, in list order, all sharing the S3 key `(0, ext)`. -/
def mkRecords (okf : String → Bool) (f : UploadFile) (ext : String) :
    List String → Nat → List ImageRecord
  | [], _ => []
  | a :: rest, i =>
    if okf a then
      ⟨i + 1, a, f.originalname, 0, ext, f.mimetype, f.size⟩ ::
        mkRecords okf f ext rest (i + 1)
    else mkRecords okf f ext rest (i + 1)

/-- The `POST /api/upload` handler.  Control flow follows the source: missing
file → 400; empty id list → 400; S3 put fails → the outer catch answers 500
`Failed to upload file` with no metadata call issued; a failing article upsert
rejects `Promise.all(articlePromises)` and also lands in the outer catch,
before any image insert is issued; otherwise all image inserts are issued, and
the response is the success body when all succeed or the single 500
`Failed to save image metadata` when any fails — either way the successful
inserts stay committed. -/
def apiUpload (env : Env) (req : UploadReq) : UploadOutcome :=
  match req.file with
  | none => ⟨.err 400 "No file uploaded", [], []⟩
  | some f =>
    let ids := articleIdList req
    if ids.isEmpty then ⟨.err 400 "At least one Article ID is required", [], []⟩
    else
      let ext := extnameOf f.originalname
      if !env.s3Ok then ⟨.err 500 "Failed to upload file", [Ev.s3Put 0 ext], []⟩
      else if !(ids.all env.upsertOk) then
        ⟨.err 500 "Failed to upload file", Ev.s3Put 0 ext :: mkUpsertEvs ids, []⟩
      else
        let recs := mkRecords env.insertOk f ext ids 0
        let tr := Ev.s3Put 0 ext :: (mkUpsertEvs ids ++ mkInsertEvs ext ids 0)
        if ids.all env.insertOk then
          ⟨.ok 0 ext ids (recs.map fun r => (r.uuid, r.articleId)), tr, recs⟩
        else ⟨.err 500 "Failed to save image metadata", tr, recs⟩

/-! Concrete instances used by the counterexample and the witnesses. -/

def fileC1 : UploadFile := ⟨"photo.png", "image/png", 123⟩

/-- Stores where S3 and the article upserts succeed, but the `images` insert
for article id `"B"` is rejected. -/
def envRejB : Env := ⟨true, fun _ => true, fun a => !(a == "B")⟩

def envAllOk : Env := ⟨true, fun _ => true, fun _ => true⟩

def reqABC : UploadReq := ⟨some fileC1, .str "A,B,C", none⟩

def reqAA : UploadReq := ⟨some fileC1, .str "A,A", none⟩

example : (apiUpload envRejB reqABC).resp =
    .err 500 "Failed to save image metadata" := by decide
example : (apiUpload envRejB reqABC).db.map (fun r => r.articleId) =
    ["A", "C"] := by decide
example : (apiUpload envAllOk reqAA).db.map (fun r => (r.uuid, r.articleId)) =
    [(1, "A"), (2, "A")] := by decide

/-! ### Helper lemmas about the orchestrator's building blocks -/

theorem mkUpsertEvs_no_s3 (ids : List String) :
    ∀ e ∈ mkUpsertEvs ids, isS3Put e = false := by
  intro e he
  simp only [mkUpsertEvs, List.mem_map] at he
  obtain ⟨a, -, rfl⟩ := he
  rfl

theorem mkInsertEvs_no_s3 (ext : String) :
    ∀ (ids : List String) (i : Nat), ∀ e ∈ mkInsertEvs ext ids i,
      isS3Put e = false := by
  intro ids
  induction ids with
  | nil => intro i e he; simp [mkInsertEvs] at he
  | cons a rest ih =>
    intro i e he
    simp only [mkInsertEvs, List.mem_cons] at he
    rcases he with rfl | he
    · rfl
    · exact ih (i + 1) e he

theorem mkInsertEvs_length (ext : String) :
    ∀ (ids : List String) (i : Nat), (mkInsertEvs ext ids i).length = ids.length := by
  intro ids
  induction ids with
  | nil => intro i; rfl
  | cons a rest ih => intro i; simp [mkInsertEvs, ih]

theorem mkRecords_all_ok (okf : String → Bool) (f : UploadFile) (ext : String) :
    ∀ (ids : List String) (i : Nat), (∀ a ∈ ids, okf a = true) →
      (mkRecords okf f ext ids i).map (fun r => r.articleId) = ids := by
  intro ids
  induction ids with
  | nil => intro i _; rfl
  | cons a rest ih =>
    intro i h
    have ha : okf a = true := h a (List.mem_cons_self a rest)
    have hrest : ∀ b ∈ rest, okf b = true := fun b hb => h b (List.mem_cons_of_mem a hb)
    simp [mkRecords, ha, ih (i + 1) hrest]

theorem mkRecords_mem (okf : String → Bool) (f : UploadFile) (ext : String) :
    ∀ (ids : List String) (i : Nat), ∀ r ∈ mkRecords okf f ext ids i,
      r.s3Base = 0 ∧ r.ext = ext ∧ r.originalName = f.originalname ∧
        r.articleId ∈ ids ∧ okf r.articleId = true ∧ i < r.uuid := by
  intro ids
  induction ids with
  | nil => intro i r hr; simp [mkRecords] at hr
  | cons a rest ih =>
    intro i r hr
    simp only [mkRecords] at hr
    by_cases ha : okf a = true
    · rw [if_pos ha] at hr
      rcases List.mem_cons.mp hr with rfl | hr'
      · exact ⟨rfl, rfl, rfl, List.mem_cons_self a rest, ha, Nat.lt_succ_self i⟩
      · obtain ⟨h1, h2, h3, h4, h5, h6⟩ := ih (i + 1) r hr'
        exact ⟨h1, h2, h3, List.mem_cons_of_mem a h4, h5,
          Nat.lt_of_succ_lt h6⟩
    · rw [if_neg ha] at hr
      obtain ⟨h1, h2, h3, h4, h5, h6⟩ := ih (i + 1) r hr
      exact ⟨h1, h2, h3, List.mem_cons_of_mem a h4, h5, Nat.lt_of_succ_lt h6⟩

theorem mkRecords_uuid_nodup (okf : String → Bool) (f : UploadFile) (ext : String) :
    ∀ (ids : List String) (i : Nat),
      ((mkRecords okf f ext ids i).map (fun r => r.uuid)).Nodup := by
  intro ids
  induction ids with
  | nil => intro i; simp [mkRecords]
  | cons a rest ih =>
    intro i
    simp only [mkRecords]
    by_cases ha : okf a = true
    · rw [if_pos ha]
      refine List.nodup_cons.mpr ⟨?_, ih (i + 1)⟩
      intro hmem
      obtain ⟨r, hr, hru⟩ := List.mem_map.mp hmem
      simp only at hru
      have := (mkRecords_mem okf f ext rest (i + 1) r hr).2.2.2.2.2
      omega
    · rw [if_neg ha]; exact ih (i + 1)

theorem mkRecords_length_all_ok (okf : String → Bool) (f : UploadFile) (ext : String) :
    ∀ (ids : List String) (i : Nat), (∀ a ∈ ids, okf a = true) →
      (mkRecords okf f ext ids i).length = ids.length := by
  intro ids i h
  have := congrArg List.length (mkRecords_all_ok okf f ext ids i h)
  simpa using this

theorem mkRecords_exists_of_ok (okf : String → Bool) (f : UploadFile) (ext : String) :
    ∀ (ids : List String) (i : Nat), ∀ a ∈ ids, okf a = true →
      ∃ r ∈ mkRecords okf f ext ids i, r.articleId = a := by
  intro ids
  induction ids with
  | nil => intro i a ha; simp at ha
  | cons b rest ih =>
    intro i a ha hok
    rcases List.mem_cons.mp ha with rfl | ha'
    · refine ⟨⟨i + 1, a, f.originalname, 0, ext, f.mimetype, f.size⟩, ?_, rfl⟩
      simp [mkRecords, hok]
    · obtain ⟨r, hr, hra⟩ := ih (i + 1) a ha' hok
      refine ⟨r, ?_, hra⟩
      simp only [mkRecords]
      by_cases hb : okf b = true
      · rw [if_pos hb]; exact List.mem_cons_of_mem _ hr
      · rw [if_neg hb]; exact hr

theorem mkInsertEvs_all_insert (ext : String) :
    ∀ (ids : List String) (i : Nat), ∀ e ∈ mkInsertEvs ext ids i,
      isInsertEv e = true := by
  intro ids
  induction ids with
  | nil => intro i e he; simp [mkInsertEvs] at he
  | cons a rest ih =>
    intro i e he
    simp only [mkInsertEvs, List.mem_cons] at he
    rcases he with rfl | he
    · rfl
    · exact ih (i + 1) e he

theorem meta_of_not_s3 {e : Ev} (h : isS3Put e = false) : isMetaEv e = true := by
  simp [isMetaEv, h]

/-- Unfolding of the handler on the main path: file present, non-empty id
list, S3 put succeeded, all article upserts succeeded. -/
theorem apiUpload_main (env : Env) (req : UploadReq) (f : UploadFile)
    (hf : req.file = some f)
    (hne : (articleIdList req).isEmpty = false)
    (hs3 : env.s3Ok = true)
    (hup : (articleIdList req).all env.upsertOk = true) :
    apiUpload env req =
      (if (articleIdList req).all env.insertOk then
        ⟨.ok 0 (extnameOf f.originalname) (articleIdList req)
            ((mkRecords env.insertOk f (extnameOf f.originalname)
              (articleIdList req) 0).map fun r => (r.uuid, r.articleId)),
          Ev.s3Put 0 (extnameOf f.originalname) ::
            (mkUpsertEvs (articleIdList req) ++
              mkInsertEvs (extnameOf f.originalname) (articleIdList req) 0),
          mkRecords env.insertOk f (extnameOf f.originalname)
            (articleIdList req) 0⟩
      else
        ⟨.err 500 "Failed to save image metadata",
          Ev.s3Put 0 (extnameOf f.originalname) ::
            (mkUpsertEvs (articleIdList req) ++
              mkInsertEvs (extnameOf f.originalname) (articleIdList req) 0),
          mkRecords env.insertOk f (extnameOf f.originalname)
            (articleIdList req) 0⟩) := by
  unfold apiUpload
  rw [hf]
  simp only [hne, hs3, hup, Bool.not_true, Bool.false_eq_true, if_false]

/-- **C2**: a successful upload call with a non-empty list of `N` distinct
identifiers issues exactly one object-store write and exactly `N` association
inserts, commits `N` rows, and every row carries the storage key generated for
this call (base token `0`, the original file's extension). -/
theorem upload_single_put_n_records (env : Env) (req : UploadReq)
    (f : UploadFile) (ids : List String)
    (hf : req.file = some f) (hids : articleIdList req = ids)
    (hne : ids ≠ []) (_hnd : ids.Nodup) (hs3 : env.s3Ok = true)
    (hok : ∀ a ∈ ids, env.upsertOk a = true ∧ env.insertOk a = true) :
    (apiUpload env req).resp =
      .ok 0 (extnameOf f.originalname) ids
        ((apiUpload env req).db.map fun r => (r.uuid, r.articleId)) ∧
    ((apiUpload env req).trace.filter isS3Put).length = 1 ∧
    ((apiUpload env req).trace.filter isInsertEv).length = ids.length ∧
    (apiUpload env req).db.length = ids.length ∧
    ((apiUpload env req).db.map fun r => r.articleId) = ids ∧
    ∀ r ∈ (apiUpload env req).db,
      r.s3Base = 0 ∧ r.ext = extnameOf f.originalname := by
  have hne' : (articleIdList req).isEmpty = false := by
    rw [hids]; exact List.isEmpty_eq_false.mpr hne
  have hup : (articleIdList req).all env.upsertOk = true := by
    rw [hids, List.all_eq_true]; exact fun a ha => (hok a ha).1
  have hins : (articleIdList req).all env.insertOk = true := by
    rw [hids, List.all_eq_true]; exact fun a ha => (hok a ha).2
  have h := apiUpload_main env req f hf hne' hs3 hup
  rw [hins, if_pos rfl] at h
  rw [h, hids]
  set ext := extnameOf f.originalname
  have hinsOk : ∀ a ∈ ids, env.insertOk a = true := fun a ha => (hok a ha).2
  refine ⟨rfl, ?_, ?_, ?_, ?_, ?_⟩
  · simp only [List.filter_cons, List.filter_append]
    have h1 : (mkUpsertEvs ids).filter isS3Put = [] :=
      List.filter_eq_nil_iff.mpr (fun e he => by
        simp [mkUpsertEvs_no_s3 ids e he])
    have h2 : (mkInsertEvs ext ids 0).filter isS3Put = [] :=
      List.filter_eq_nil_iff.mpr (fun e he => by
        simp [mkInsertEvs_no_s3 ext ids 0 e he])
    simp [h1, h2, isS3Put]
  · simp only [List.filter_cons, List.filter_append]
    have h1 : (mkUpsertEvs ids).filter isInsertEv = [] :=
      List.filter_eq_nil_iff.mpr (fun e he => by
        have : isInsertEv e = false := by
          simp only [mkUpsertEvs, List.mem_map] at he
          obtain ⟨a, -, rfl⟩ := he
          rfl
        simp [this])
    have h2 : (mkInsertEvs ext ids 0).filter isInsertEv = mkInsertEvs ext ids 0 :=
      List.filter_eq_self.mpr (fun e he => by
        simp [mkInsertEvs_all_insert ext ids 0 e he])
    simp [h1, h2, isInsertEv, mkInsertEvs_length]
  · exact mkRecords_length_all_ok env.insertOk f ext ids 0 hinsOk
  · exact mkRecords_all_ok env.insertOk f ext ids 0 hinsOk
  · intro r hr
    have := mkRecords_mem env.insertOk f ext ids 0 r hr
    exact ⟨this.1, this.2.1⟩

/-- **C2** witness at the list `["A","B","C"]` against all-accepting stores. -/
theorem upload_single_put_n_records_witness :
    ((apiUpload envAllOk reqABC).trace.filter isS3Put).length = 1 ∧
    ((apiUpload envAllOk reqABC).trace.filter isInsertEv).length = 3 ∧
    ((apiUpload envAllOk reqABC).db.map fun r => r.articleId) = ["A", "B", "C"] := by
  have h := upload_single_put_n_records envAllOk reqABC fileC1 ["A", "B", "C"]
    rfl (by decide) (by decide) (by decide) rfl (by decide)
  exact ⟨h.2.1, h.2.2.1, h.2.2.2.2.1⟩

/-- **C1** counterexample: with stores that reject article `"B"`'s row insert
but accept `"A"`'s and `"C"`'s, the call answers the single blanket error body
`Failed to save image metadata` (a 500), not a per-identifier result set —
though the rows for `"A"` and `"C"` are committed. -/
theorem upload_partial_failure_counterexample :
    (apiUpload envRejB reqABC).resp = .err 500 "Failed to save image metadata" ∧
    (apiUpload envRejB reqABC).db.map (fun r => (r.articleId, r.s3Base)) =
      [("A", 0), ("C", 0)] := by decide

/-- **C1** (amended): when the metadata store rejects the insert for some
identifier after the object write succeeded, the call returns one blanket
500 error (`Failed to save image metadata`) rather than a per-identifier
result set, but it does not roll back: every identifier whose insert the
store accepted keeps its committed association row, bound to the shared
storage key. -/
theorem upload_partial_failure_keeps_successes (env : Env) (req : UploadReq)
    (f : UploadFile) (ids : List String)
    (hf : req.file = some f) (hids : articleIdList req = ids)
    (hs3 : env.s3Ok = true)
    (hup : ∀ a ∈ ids, env.upsertOk a = true)
    (hbad : ids.all env.insertOk = false) :
    (apiUpload env req).resp = .err 500 "Failed to save image metadata" ∧
    ∀ a ∈ ids, env.insertOk a = true →
      ∃ r ∈ (apiUpload env req).db, r.articleId = a ∧ r.s3Base = 0 ∧
        r.ext = extnameOf f.originalname := by
  have hne : ids ≠ [] := by
    intro h; rw [h] at hbad; simp at hbad
  have hne' : (articleIdList req).isEmpty = false := by
    rw [hids]; exact List.isEmpty_eq_false.mpr hne
  have hup' : (articleIdList req).all env.upsertOk = true := by
    rw [hids, List.all_eq_true]; exact hup
  have h := apiUpload_main env req f hf hne' hs3 hup'
  rw [hids, hbad] at h
  simp only [Bool.false_eq_true, if_false] at h
  rw [h]
  refine ⟨rfl, ?_⟩
  intro a ha hok
  obtain ⟨r, hr, hra⟩ :=
    mkRecords_exists_of_ok env.insertOk f (extnameOf f.originalname) ids 0 a ha hok
  have hm := mkRecords_mem env.insertOk f (extnameOf f.originalname) ids 0 r hr
  exact ⟨r, hr, hra, hm.1, hm.2.1⟩

/-- **C1** witness: at the concrete scenario of the counterexample, the rows
for `"A"` and `"C"` remain committed. -/
theorem upload_partial_failure_keeps_successes_witness :
    (apiUpload envRejB reqABC).resp = .err 500 "Failed to save image metadata" ∧
    (∃ r ∈ (apiUpload envRejB reqABC).db, r.articleId = "A" ∧ r.s3Base = 0 ∧
      r.ext = extnameOf fileC1.originalname) ∧
    ∃ r ∈ (apiUpload envRejB reqABC).db, r.articleId = "C" ∧ r.s3Base = 0 ∧
      r.ext = extnameOf fileC1.originalname := by
  have h := upload_partial_failure_keeps_successes envRejB reqABC fileC1
    ["A", "B", "C"] rfl (by decide) rfl (by decide) (by decide)
  exact ⟨h.1, h.2 "A" (by decide) (by decide), h.2 "C" (by decide) (by decide)⟩

/-- **C3**: in every call, the trace is either empty (validation failed before
any external call) or starts with the single object-store put, followed only
by metadata writes; and when the object-store put fails, no metadata write is
issued and — provided the put was reached at all — the call aborts with the
500 error `Failed to upload file`. -/
theorem upload_object_write_first (env : Env) (req : UploadReq) :
    ((apiUpload env req).trace = [] ∨
      ∃ ext rest, (apiUpload env req).trace = Ev.s3Put 0 ext :: rest ∧
        ∀ e ∈ rest, isMetaEv e = true) ∧
    (env.s3Ok = false →
      (apiUpload env req).trace.filter isMetaEv = [] ∧
      ((apiUpload env req).trace ≠ [] →
        (apiUpload env req).resp = .err 500 "Failed to upload file")) := by
  refine ⟨?_, ?_⟩
  · cases hfile : req.file with
    | none =>
      unfold apiUpload
      rw [hfile]
      exact Or.inl rfl
    | some f =>
      unfold apiUpload
      rw [hfile]
      by_cases hne : (articleIdList req).isEmpty
      · exact Or.inl (by simp [hne])
      · rw [Bool.not_eq_true] at hne
        simp only [hne, Bool.false_eq_true, if_false]
        by_cases hs3 : env.s3Ok
        · simp only [hs3, Bool.not_true, Bool.false_eq_true, if_false]
          by_cases hup : (articleIdList req).all env.upsertOk
          · simp only [hup, Bool.not_true, Bool.false_eq_true, if_false]
            have hmeta : ∀ e ∈ mkUpsertEvs (articleIdList req) ++
                mkInsertEvs (extnameOf f.originalname) (articleIdList req) 0,
                isMetaEv e = true := by
              intro e he
              rcases List.mem_append.mp he with h | h
              · exact meta_of_not_s3 (mkUpsertEvs_no_s3 _ e h)
              · exact meta_of_not_s3 (mkInsertEvs_no_s3 _ _ _ e h)
            by_cases hins : (articleIdList req).all env.insertOk
            · simp only [hins, if_true]
              exact Or.inr ⟨extnameOf f.originalname, _, rfl, hmeta⟩
            · rw [Bool.not_eq_true] at hins
              simp only [hins, Bool.false_eq_true, if_false]
              exact Or.inr ⟨extnameOf f.originalname, _, rfl, hmeta⟩
          · rw [Bool.not_eq_true] at hup
            simp only [hup, Bool.not_false, if_true]
            refine Or.inr ⟨extnameOf f.originalname, _, rfl, ?_⟩
            intro e he
            exact meta_of_not_s3 (mkUpsertEvs_no_s3 _ e he)
        · rw [Bool.not_eq_true] at hs3
          simp only [hs3, Bool.not_false, if_true]
          exact Or.inr ⟨extnameOf f.originalname, [], rfl, by simp⟩
  · intro hs3f
    cases hfile : req.file with
    | none =>
      unfold apiUpload
      rw [hfile]
      exact ⟨rfl, fun h => absurd rfl h⟩
    | some f =>
      unfold apiUpload
      rw [hfile]
      by_cases hne : (articleIdList req).isEmpty
      · exact ⟨by simp [hne], fun h => absurd (by simp [hne]) h⟩
      · rw [Bool.not_eq_true] at hne
        simp only [hne, Bool.false_eq_true, if_false, hs3f, Bool.not_false, if_true]
        exact ⟨rfl, fun _ => trivial⟩

/-- Stores whose object-store write fails. -/
def envS3Fail : Env := ⟨false, fun _ => true, fun _ => true⟩

/-- **C3** witness: a concrete call against a failing object store issues no
metadata write and aborts with the 500 error. -/
theorem upload_object_write_first_witness :
    (apiUpload envS3Fail reqABC).trace.filter isMetaEv = [] ∧
    (apiUpload envS3Fail reqABC).resp = .err 500 "Failed to upload file" := by
  have h := (upload_object_write_first envS3Fail reqABC).2 rfl
  exact ⟨h.1, h.2 (by decide)⟩

/-- **C10**: the handler does not deduplicate the identifier list — one row is
committed per list element (so a request listing `"A"` twice yields two rows),
the association uuids are pairwise distinct, the parent identifiers follow the
list element-wise, and every row carries the same storage key. -/
theorem upload_no_dedup (env : Env) (req : UploadReq) (f : UploadFile)
    (ids : List String)
    (hf : req.file = some f) (hids : articleIdList req = ids)
    (hne : ids ≠ []) (hs3 : env.s3Ok = true)
    (hok : ∀ a ∈ ids, env.upsertOk a = true ∧ env.insertOk a = true) :
    (apiUpload env req).db.length = ids.length ∧
    ((apiUpload env req).db.map fun r => r.articleId) = ids ∧
    ((apiUpload env req).db.map fun r => r.uuid).Nodup ∧
    ∀ r ∈ (apiUpload env req).db,
      r.s3Base = 0 ∧ r.ext = extnameOf f.originalname := by
  have hne' : (articleIdList req).isEmpty = false := by
    rw [hids]; exact List.isEmpty_eq_false.mpr hne
  have hup : (articleIdList req).all env.upsertOk = true := by
    rw [hids, List.all_eq_true]; exact fun a ha => (hok a ha).1
  have hins : (articleIdList req).all env.insertOk = true := by
    rw [hids, List.all_eq_true]; exact fun a ha => (hok a ha).2
  have h := apiUpload_main env req f hf hne' hs3 hup
  rw [hins, if_pos rfl] at h
  rw [h, hids]
  have hinsOk : ∀ a ∈ ids, env.insertOk a = true := fun a ha => (hok a ha).2
  refine ⟨mkRecords_length_all_ok env.insertOk f _ ids 0 hinsOk,
    mkRecords_all_ok env.insertOk f _ ids 0 hinsOk,
    mkRecords_uuid_nodup env.insertOk f _ ids 0, ?_⟩
  intro r hr
  have := mkRecords_mem env.insertOk f _ ids 0 r hr
  exact ⟨this.1, this.2.1⟩

/-- **C10** witness: uploading with `articleIds = "A,A"` yields two committed
rows with distinct uuids, both for parent `"A"` and the shared key. -/
theorem upload_no_dedup_witness :
    (apiUpload envAllOk reqAA).db.length = 2 ∧
    ((apiUpload envAllOk reqAA).db.map fun r => r.articleId) = ["A", "A"] ∧
    ((apiUpload envAllOk reqAA).db.map fun r => r.uuid).Nodup := by
  have h := upload_no_dedup envAllOk reqAA fileC1 ["A", "A"]
    rfl (by decide) (by decide) rfl (by decide)
  exact ⟨h.1, h.2.1, h.2.2.1⟩

/-! ### `extractSapIds`: the identifier extractor's contract (C6) -/

theorem digit_not_ws (c : Char) (h : c.isDigit = true) : wsChar c = false := by
  by_cases hw : c.isWhitespace
  · exfalso
    simp only [Char.isWhitespace, Bool.or_eq_true, decide_eq_true_eq] at hw
    rcases hw with ((rfl | rfl) | rfl) | rfl <;> simp [Char.isDigit] at h
  · simpa [wsChar] using hw

theorem dropWhile_all_false {l : List Char} (h : ∀ c ∈ l, wsChar c = false) :
    l.dropWhile wsChar = l := by
  cases l with
  | nil => rfl
  | cons c rest => simp [List.dropWhile_cons, h c (List.mem_cons_self c rest)]

theorem trimChars_fixed {l : List Char} (h : ∀ c ∈ l, wsChar c = false) :
    trimChars l = l := by
  unfold trimChars
  rw [dropWhile_all_false h,
    dropWhile_all_false (fun c hc => h c (List.mem_reverse.mp hc))]
  exact List.reverse_reverse l

/-- **C6**: `extractSapIds` returns only non-empty, trimmed, entirely numeric
strings; the result is an order-preserving selection of the trimmed
hyphen-separated parts of the extension-stripped stem; and the two reference
inputs behave as the spec states. -/
theorem extractSapIds_spec :
    (∀ f s, s ∈ extractSapIds f →
      s ≠ "" ∧ jsTrim s = s ∧ s.toList.all Char.isDigit = true) ∧
    (∀ f, (extractSapIds f).Sublist
      (((splitOnChar '-' (stemChars f.toList)).map trimChars).map String.mk)) ∧
    extractSapIds "123-456.png" = ["123", "456"] ∧
    extractSapIds "no-ids-here.png" = [] := by
  refine ⟨?_, ?_, by decide, by decide⟩
  · intro f s hs
    simp only [extractSapIds, List.mem_map] at hs
    obtain ⟨p, hp, rfl⟩ := hs
    obtain ⟨-, hnum⟩ := List.mem_filter.mp hp
    rw [numericPart, Bool.and_eq_true] at hnum
    obtain ⟨hne, hdig⟩ := hnum
    have hdig' : ∀ c ∈ p, Char.isDigit c = true := List.all_eq_true.mp hdig
    refine ⟨?_, ?_, hdig⟩
    · intro hcon
      have : p = [] := congrArg String.data hcon
      rw [this] at hne
      simp at hne
    · show String.mk (trimChars (String.mk p).toList) = String.mk p
      have : (String.mk p).toList = p := rfl
      rw [this, trimChars_fixed (fun c hc => digit_not_ws c (hdig' c hc))]
  · intro f
    exact List.Sublist.map String.mk
      (List.filter_sublist ((splitOnChar '-' (stemChars f.toList)).map trimChars))

/-- **C6** witness: the element `"123"` of `extractSapIds "123-456.png"` is
non-empty, trimmed and numeric. -/
theorem extractSapIds_spec_witness :
    "123" ≠ "" ∧ jsTrim "123" = "123" ∧
    "123".toList.all Char.isDigit = true := by
  exact extractSapIds_spec.1 "123-456.png" "123" (by decide)

/-! ### The multer pipeline in front of `POST /api/upload` (C7)

```js
fileFilter: (req, file, cb) => {
  const allowedTypes = ['image/jpeg', 'image/jpg', 'image/png', 'image/gif'];
  if (allowedTypes.includes(file.mimetype)) { cb(null, true); }
  else { cb(new Error('Invalid file type. Only JPEG, PNG and GIF are allowed.')); }
},
limits: { fileSize: 10 * 1024 * 1024 }
```

multer runs the fileFilter (and enforces the size cap) while parsing the
multipart body, before the route handler executes: a rejected file means the
handler body — and with it every S3/SQLite call — is never reached. -/

def allowedTypes : List String :=
  ["image/jpeg", "image/jpg", "image/png", "image/gif"]

inductive PipelineResult where
  | rejected (msg : String)
  | handled (outcome : UploadOutcome)
deriving DecidableEq

/-- Gateway calls issued by a request: none at all when multer rejected the
file before the handler ran. -/
def pipelineEvents : PipelineResult → List Ev
  | .rejected _ => []
  | .handled o => o.trace

def uploadPipeline (env : Env) (file? : Option UploadFile) (idsF : IdsField)
    (idF : Option String) : PipelineResult :=
  match file? with
  | none => .handled (apiUpload env ⟨none, idsF, idF⟩)
  | some f =>
    if !(allowedTypes.contains f.mimetype) then
      .rejected "Invalid file type. Only JPEG, PNG and GIF are allowed."
    else if f.size > 10 * 1024 * 1024 then
      .rejected "File too large"
    else .handled (apiUpload env ⟨some f, idsF, idF⟩)

/-- **C7**: a request whose content type is outside the allow-list is rejected
by the fileFilter with the validation message, and zero calls reach the object
store or the metadata store. -/
theorem upload_invalid_type_rejected (env : Env) (f : UploadFile)
    (idsF : IdsField) (idF : Option String)
    (h : allowedTypes.contains f.mimetype = false) :
    uploadPipeline env (some f) idsF idF =
      .rejected "Invalid file type. Only JPEG, PNG and GIF are allowed." ∧
    pipelineEvents (uploadPipeline env (some f) idsF idF) = [] := by
  have hr : uploadPipeline env (some f) idsF idF =
      .rejected "Invalid file type. Only JPEG, PNG and GIF are allowed." := by
    simp only [uploadPipeline]
    rw [h]
    rfl
  exact ⟨hr, by rw [hr]; rfl⟩

/-- **C7** witness: a `text/plain` upload is rejected with no gateway call. -/
theorem upload_invalid_type_rejected_witness :
    uploadPipeline envAllOk (some ⟨"notes.txt", "text/plain", 17⟩) .absent none =
      .rejected "Invalid file type. Only JPEG, PNG and GIF are allowed." ∧
    pipelineEvents
      (uploadPipeline envAllOk (some ⟨"notes.txt", "text/plain", 17⟩) .absent none) = [] := by
  exact upload_invalid_type_rejected envAllOk ⟨"notes.txt", "text/plain", 17⟩
    .absent none (by decide)

/-! ### The byte-serving endpoints (C8)

Articles variant, `GET /api/serve-image/:uuid`: looks the row up by uuid,
fetches the object, and answers with

```js
res.set({
  'Content-Type': row.content_type,
  'Content-Length': s3Object.ContentLength,
  'Cache-Control': 'public, max-age=31536000',
  'Content-Disposition': `inline; filename="${row.original_name}"`
});
```

Imageid variant, `GET /serve-image/:imageId`: finds a product whose
`imageid` matches, lists the bucket under the imageId as key prefix, fetches
the first object, and sets only

```js
res.setHeader('Content-Type', contentType);
res.setHeader('Cache-Control', 'public, max-age=86400');
```
-/

/-- An object fetched from the store (`ContentType` can be absent). -/
structure S3Object where
  contentLength : Nat
  contentType : Option String
  body : List Nat
deriving DecidableEq

inductive ServeResp where
  | notFound (msg : String)
  | failure (msg : String)
  | okBytes (contentType : String) (contentLength : Nat) (cacheControl : String)
            (contentDisposition : String) (body : List Nat)
deriving DecidableEq

/-- `GET /api/serve-image/:uuid` of the articles variant.  `s3get` is the
object store's read, keyed by the stored `(base, ext)` key. -/
def serveImageArticles (recs : List ImageRecord)
    (s3get : Nat → String → Option S3Object) (uuid : Nat) : ServeResp :=
  match recs.find? (fun r => r.uuid == uuid) with
  | none => .notFound "Image not found"
  | some row =>
    match s3get row.s3Base row.ext with
    | none => .failure "Failed to retrieve image from storage"
    | some obj =>
      .okBytes row.contentType obj.contentLength "public, max-age=31536000"
        ("inline; filename=\"" ++ row.originalName ++ "\"") obj.body

/-- A key in the imageid variant's bucket: `` `${imageId}.${ext}` `` is
modelled as the generating token plus the extension text. -/
structure ObjKey where
  base : Nat
  ext : String
deriving DecidableEq

/-- A document of the Firestore `products` collection (the fields this server
touches). -/
structure Product where
  docId : Nat
  sap : Int
  imageid : Option Nat
deriving DecidableEq

inductive ServeRespB where
  | notFound (msg : String)
  | failure (msg : String)
  | okBytes (contentType : String) (cacheControl : String) (body : List Nat)
deriving DecidableEq

/-- `GET /serve-image/:imageId` of the imageid variant.  `s3keys` is the
bucket listing; `listObjectsV2` with `Prefix: imageId` returns the keys whose
uuid token is `imageId`. -/
def serveImageById (products : List Product) (s3keys : List ObjKey)
    (s3get : ObjKey → Option S3Object) (imageId : Nat) : ServeRespB :=
  if (products.filter (fun p => p.imageid == some imageId)).isEmpty then
    .notFound "Image not found"
  else
    match s3keys.filter (fun k => k.base == imageId) with
    | [] => .notFound "Image file not found in S3"
    | key :: _ =>
      match s3get key with
      | none => .failure "Internal server error"
      | some obj =>
        .okBytes (obj.contentType.getD "image/jpeg") "public, max-age=86400" obj.body

/-- **C8** counterexample: the imageid variant's byte-serving endpoint, for an
association id bound to a stored object, serves the bytes with
`Cache-Control: public, max-age=86400` — not `max-age=31536000` — and its
response carries no `Content-Length` or `Content-Disposition` header at all. -/
theorem serve_headers_counterexample :
    serveImageById [⟨0, 5, some 7⟩] [⟨7, "png"⟩]
      (fun k => if k == ⟨7, "png"⟩ then some ⟨4, some "image/png", [9, 9, 9, 9]⟩ else none)
      7 =
      .okBytes "image/png" "public, max-age=86400" [9, 9, 9, 9] ∧
    "public, max-age=86400" ≠ "public, max-age=31536000" := by decide

/-- **C8** (amended): the articles variant's byte-serving endpoint
(`/api/serve-image/:uuid`) answers, for every association id bound to a
stored object, with the object bytes plus `Content-Type` (the stored content
type), `Content-Length` (the object's length),
`Cache-Control: public, max-age=31536000` and `Content-Disposition: inline`
with the original filename; the imageid variant's endpoint sets only
`Content-Type` and `Cache-Control: public, max-age=86400`. -/
theorem serve_articles_headers (recs : List ImageRecord)
    (s3get : Nat → String → Option S3Object) (uuid : Nat)
    (row : ImageRecord) (obj : S3Object)
    (hrow : recs.find? (fun r => r.uuid == uuid) = some row)
    (hobj : s3get row.s3Base row.ext = some obj) :
    serveImageArticles recs s3get uuid =
      .okBytes row.contentType obj.contentLength "public, max-age=31536000"
        ("inline; filename=\"" ++ row.originalName ++ "\"") obj.body := by
  unfold serveImageArticles
  rw [hrow]
  show (match s3get row.s3Base row.ext with
    | none => ServeResp.failure "Failed to retrieve image from storage"
    | some obj =>
      ServeResp.okBytes row.contentType obj.contentLength "public, max-age=31536000"
        ("inline; filename=\"" ++ row.originalName ++ "\"") obj.body) = _
  rw [hobj]

/-- **C8** witness: the articles-variant endpoint at a concrete stored row. -/
theorem serve_articles_headers_witness :
    serveImageArticles [⟨3, "A", "photo.png", 0, ".png", "image/png", 4⟩]
      (fun b e => if b == 0 && e == ".png" then some ⟨4, some "image/png", [1, 2, 3, 4]⟩ else none)
      3 =
      .okBytes "image/png" 4 "public, max-age=31536000"
        "inline; filename=\"photo.png\"" [1, 2, 3, 4] := by
  exact serve_articles_headers _ _ 3 ⟨3, "A", "photo.png", 0, ".png", "image/png", 4⟩
    ⟨4, some "image/png", [1, 2, 3, 4]⟩ (by decide) (by decide)

/-! ### `POST /upload-image/:sap?` (imageid variant, C9)

The handler uploads the image once under a fresh uuid key, then for each SAP
id queries `products` where `SAP == sapId`; if the query is empty the id goes
to `notFound`, otherwise only `querySnapshot.docs[0]` — the first matching
document — gets `imageid` set.  The response is always status 200 once the
S3 write succeeded, even when nothing was updated. -/

/-- `req.file.originalname.split('.').pop()`. -/
def jsExtPop (name : String) : String :=
  String.mk ((splitOnChar '.' name.toList).getLastD [])

structure UpdateOut where
  products : List Product
  updatedSaps : List Int
  notFoundSaps : List Int
  updateEvents : List Nat
deriving DecidableEq

/-- The per-SAP update loop.  `find?` models `querySnapshot.docs[0]` (the
first document matching the `SAP == sapId` query); `updateEvents` records the
docIds passed to `updateDoc`, in order. -/
def updateProducts (imageId : Nat) : List Int → List Product → UpdateOut
  | [], ps => ⟨ps, [], [], []⟩
  | s :: rest, ps =>
    match ps.find? (fun p => p.sap == s) with
    | none =>
      let o := updateProducts imageId rest ps
      ⟨o.products, o.updatedSaps, s :: o.notFoundSaps, o.updateEvents⟩
    | some p0 =>
      let ps2 := ps.map (fun p =>
        if p.docId == p0.docId then ⟨p.docId, p.sap, some imageId⟩ else p)
      let o := updateProducts imageId rest ps2
      ⟨o.products, s :: o.updatedSaps, o.notFoundSaps, p0.docId :: o.updateEvents⟩

structure UploadImageOk where
  status : Nat
  imageId : Nat
  updatedSaps : List Int
  notFoundSaps : List Int
  totalRequested : Nat
  totalUpdated : Nat
deriving DecidableEq

inductive UploadImageResp where
  | err (status : Nat) (msg : String)
  | ok (body : UploadImageOk)
deriving DecidableEq

structure UploadImageOutcome where
  resp : UploadImageResp
  s3 : List ObjKey
  products : List Product
  updateEvents : List Nat
deriving DecidableEq

/-- How the handler obtained its SAP ids: neither field present (400), a
`saps` body that fails `JSON.parse` (400), a `saps` body that parses to a
non-array (which silently leaves the id list empty), a parsed array (after
`parseInt` of each element), or the `:sap` route parameter (after
`parseInt`). -/
inductive SapsField where
  | absent
  | invalidBody
  | bodyNonArray
  | fromBody (ids : List Int)
  | fromParam (sap : Int)
deriving DecidableEq

/-- The part of the handler after the SAP ids are determined: one S3 put of
the payload under the fresh `` `${imageId}.${ext}` `` key, then the product
updates; status 200 regardless of how many ids matched. -/
def uploadImageCore (s3Ok : Bool) (s3 : List ObjKey) (products : List Product)
    (f : UploadFile) (sapIds : List Int) (imageId : Nat) : UploadImageOutcome :=
  if s3Ok = false then ⟨.err 500 "Internal server error", s3, products, []⟩
  else
    let key : ObjKey := ⟨imageId, jsExtPop f.originalname⟩
    let o := updateProducts imageId sapIds products
    ⟨.ok ⟨200, imageId, o.updatedSaps, o.notFoundSaps, sapIds.length,
        o.updatedSaps.length⟩,
      s3 ++ [key], o.products, o.updateEvents⟩

def uploadImageRoute (s3Ok : Bool) (s3 : List ObjKey) (products : List Product)
    (file? : Option UploadFile) (sapsF : SapsField) (imageId : Nat) :
    UploadImageOutcome :=
  match file? with
  | none => ⟨.err 400 "No image file provided", s3, products, []⟩
  | some f =>
    match sapsF with
    | .absent => ⟨.err 400 "No SAP ID(s) provided", s3, products, []⟩
    | .invalidBody => ⟨.err 400 "Invalid SAPs format", s3, products, []⟩
    | .bodyNonArray => uploadImageCore s3Ok s3 products f [] imageId
    | .fromBody ids => uploadImageCore s3Ok s3 products f ids imageId
    | .fromParam s => uploadImageCore s3Ok s3 products f [s] imageId

theorem find?_eq_head?_of_filter {α : Type} (p : α → Bool) (l : List α) :
    l.find? p = (l.filter p).head? := by
  induction l with
  | nil => rfl
  | cons a t ih =>
    cases h : p a
    · simp only [List.find?_cons, List.filter_cons, h, ih]
      rfl
    · simp only [List.find?_cons, List.filter_cons, h]
      rfl

theorem updateProducts_no_match (imageId : Nat) :
    ∀ (sapIds : List Int) (ps : List Product),
      (∀ s ∈ sapIds, ∀ p ∈ ps, (p.sap == s) = false) →
      updateProducts imageId sapIds ps = ⟨ps, [], sapIds, []⟩ := by
  intro sapIds
  induction sapIds with
  | nil => intro ps _; rfl
  | cons s rest ih =>
    intro ps h
    have hfind : ps.find? (fun p => p.sap == s) = none := by
      rw [List.find?_eq_none]
      intro p hp
      simp [h s (List.mem_cons_self s rest) p hp]
    unfold updateProducts
    rw [hfind, ih ps (fun t ht p hp => h t (List.mem_cons_of_mem s ht) p hp)]

/-- **C9**: in the imageid variant, (a) when the S3 write succeeds and no
requested SAP id matches any product, the call still answers status 200 with
`totalUpdated = 0` and every id in `notFoundSaps`, the object is stored in
the bucket, and the product collection is unchanged — in particular no
document references the fresh imageId; and (b) when a SAP id matches several
documents, `updateDoc` is issued only for the first match, which alone gets
the new imageid. -/
theorem uploadImage_orphan_and_first_match :
    (∀ (s3 : List ObjKey) (products : List Product) (f : UploadFile)
        (sapIds : List Int) (imageId : Nat),
      (∀ s ∈ sapIds, ∀ p ∈ products, (p.sap == s) = false) →
      (∀ p ∈ products, p.imageid ≠ some imageId) →
      (uploadImageRoute true s3 products (some f) (.fromBody sapIds) imageId).resp =
        .ok ⟨200, imageId, [], sapIds, sapIds.length, 0⟩ ∧
      (uploadImageRoute true s3 products (some f) (.fromBody sapIds) imageId).s3 =
        s3 ++ [⟨imageId, jsExtPop f.originalname⟩] ∧
      (uploadImageRoute true s3 products (some f) (.fromBody sapIds) imageId).products =
        products ∧
      (∀ p ∈ (uploadImageRoute true s3 products (some f) (.fromBody sapIds) imageId).products,
        p.imageid ≠ some imageId) ∧
      (uploadImageRoute true s3 products (some f) (.fromBody sapIds) imageId).updateEvents = []) ∧
    (∀ (products : List Product) (s : Int) (imageId : Nat) (p0 : Product)
        (rest : List Product),
      products.filter (fun p => p.sap == s) = p0 :: rest →
      (updateProducts imageId [s] products).updateEvents = [p0.docId] ∧
      (updateProducts imageId [s] products).products =
        products.map (fun p =>
          if p.docId == p0.docId then ⟨p.docId, p.sap, some imageId⟩ else p)) := by
  constructor
  · intro s3 products f sapIds imageId hno hfresh
    have hupd := updateProducts_no_match imageId sapIds products hno
    have hroute : uploadImageRoute true s3 products (some f) (.fromBody sapIds) imageId =
        ⟨.ok ⟨200, imageId, [], sapIds, sapIds.length, 0⟩,
          s3 ++ [⟨imageId, jsExtPop f.originalname⟩], products, []⟩ := by
      show uploadImageCore true s3 products f sapIds imageId = _
      unfold uploadImageCore
      simp only [hupd]
      rfl
    rw [hroute]
    exact ⟨rfl, rfl, rfl, hfresh, rfl⟩
  · intro products s imageId p0 rest hfilter
    have hfind : products.find? (fun p => p.sap == s) = some p0 := by
      rw [find?_eq_head?_of_filter, hfilter]
      rfl
    unfold updateProducts
    rw [hfind]
    exact ⟨rfl, rfl⟩

/-- **C9** witness: part (a) at a one-product store and the unmatched id 99;
part (b) at two documents both carrying SAP 1 — only the first is updated. -/
theorem uploadImage_orphan_and_first_match_witness :
    ((uploadImageRoute true [] [⟨0, 1, none⟩] (some fileC1) (.fromBody [99]) 5).resp =
      .ok ⟨200, 5, [], [99], 1, 0⟩ ∧
     (uploadImageRoute true [] [⟨0, 1, none⟩] (some fileC1) (.fromBody [99]) 5).products =
      [⟨0, 1, none⟩]) ∧
    (updateProducts 5 [1] [⟨0, 1, none⟩, ⟨1, 1, none⟩]).updateEvents = [0] ∧
    (updateProducts 5 [1] [⟨0, 1, none⟩, ⟨1, 1, none⟩]).products =
      [⟨0, 1, some 5⟩, ⟨1, 1, none⟩] := by
  have ha := uploadImage_orphan_and_first_match.1 [] [⟨0, 1, none⟩] fileC1 [99] 5
    (by decide) (by decide)
  have hb := uploadImage_orphan_and_first_match.2 [⟨0, 1, none⟩, ⟨1, 1, none⟩] 1 5
    ⟨0, 1, none⟩ [⟨1, 1, none⟩] (by decide)
  exact ⟨⟨ha.1, ha.2.2.1⟩, hb.1, by rw [hb.2]; decide⟩

/-! ### The batch upload driver `processImageFolder` (C5)

The driver lists the folder, keeps supported image files, and per file:
derives the SAP ids from the filename (zero ids → counted as skipped), issues
one `POST /upload-image/:sapId` per id, and tallies `total`, `successful`,
`failed` (with an error entry) per upload result, halting on the first failure
unless `skipErrors`.  The HTTP calls run against the imageid-variant server
(`uploadImageRoute`); the model applies them to the server state sequentially
in window order, which preserves all counts.  `updateCount` accumulates the
number of `updateDoc` calls — the associations created on the backend. -/

def supportedFormats : List String :=
  [".jpg", ".jpeg", ".png", ".gif", ".webp", ".bmp", ".tiff", ".tif"]

def isSupportedImageFormat (filename : String) : Bool :=
  supportedFormats.contains (lowerStr (extnameOf filename))

def contentTypes : List (String × String) :=
  [(".jpg", "image/jpeg"), (".jpeg", "image/jpeg"), (".png", "image/png"),
   (".gif", "image/gif"), (".webp", "image/webp"), (".bmp", "image/bmp"),
   (".tiff", "image/tiff"), (".tif", "image/tiff")]

def getContentType (filename : String) : String :=
  (contentTypes.lookup (lowerStr (extnameOf filename))).getD "image/jpeg"

/-- `parseInt` restricted to the all-digit strings `extractSapIds` yields. -/
def parseIntNum (s : String) : Int :=
  Int.ofNat (s.toList.foldl (fun acc c => acc * 10 + (c.toNat - 48)) 0)

/-- The windows of `for (let i = 0; i < n; i += concurrent)` with
`slice(i, i + concurrent)`: consecutive chunks of `k` elements (the driver
always passes `k ≥ 1`).  `cur` accumulates the current chunk reversed, `cnt`
its length. -/
def toBatchesAux {α : Type} (k : Nat) : List α → List α → Nat → List (List α)
  | [], cur, _ => if cur.isEmpty then [] else [cur.reverse]
  | x :: xs, cur, cnt =>
    if cnt + 1 == k then (x :: cur).reverse :: toBatchesAux k xs [] 0
    else toBatchesAux k xs (x :: cur) (cnt + 1)

def toBatches {α : Type} (k : Nat) (l : List α) : List (List α) :=
  toBatchesAux k l [] 0

example : toBatches 2 ["1", "2", "3"] = [["1", "2"], ["3"]] := by decide

structure BatchResults where
  total : Nat
  successful : Nat
  failed : Nat
  skipped : Nat
  errors : List (String × Int × String)
deriving DecidableEq

/-- Driver-plus-backend state: the tally, the bucket and product collection of
the imageid-variant server, the running count of `updateDoc` calls, and the
uuid counter supplying each request's fresh imageId. -/
structure DrvState where
  results : BatchResults
  s3 : List ObjKey
  products : List Product
  updateCount : Nat
  nextImageId : Nat
deriving DecidableEq

/-- `uploadImageForSap`: one HTTP upload of the file for one SAP id; success
iff the server answered 2xx.  Returns the server's error message on failure. -/
def uploadImageForSap (st : DrvState) (file : String) (sapId : Int) :
    Option String × DrvState :=
  let o := uploadImageRoute true st.s3 st.products
    (some ⟨file, getContentType file, 0⟩) (.fromParam sapId) st.nextImageId
  let st2 : DrvState := { st with
    s3 := o.s3
    products := o.products
    updateCount := st.updateCount + o.updateEvents.length
    nextImageId := st.nextImageId + 1 }
  match o.resp with
  | .ok _ => (none, st2)
  | .err _ msg => (some msg, st2)

/-- The tally loop over one window's results: `total++` per result, then
`successful++` or `failed++` plus an error entry; without `skipErrors` the
driver exits on the first failure (second component `true`). -/
def countBatch (file : String) (skipErrors : Bool) :
    List String → DrvState → DrvState × Bool
  | [], st => (st, false)
  | sap :: rest, st =>
    let r := uploadImageForSap st file (parseIntNum sap)
    match r.1 with
    | none =>
      countBatch file skipErrors rest
        { r.2 with results := { r.2.results with
            total := r.2.results.total + 1
            successful := r.2.results.successful + 1 } }
    | some msg =>
      let st2 : DrvState := { r.2 with results := { r.2.results with
          total := r.2.results.total + 1
          failed := r.2.results.failed + 1
          errors := r.2.results.errors ++ [(file, parseIntNum sap, msg)] } }
      if skipErrors then countBatch file skipErrors rest st2
      else (st2, true)

def runBatches (file : String) (skipErrors : Bool) :
    List (List String) → DrvState → DrvState × Bool
  | [], st => (st, false)
  | w :: ws, st =>
    let r := countBatch file skipErrors w st
    if r.2 then (r.1, true) else runBatches file skipErrors ws r.1

def processOneFile (skipErrors : Bool) (k : Nat) (file : String)
    (st : DrvState) : DrvState × Bool :=
  let sapIds := extractSapIds file
  if sapIds.isEmpty then
    ({ st with results := { st.results with skipped := st.results.skipped + 1 } },
      false)
  else runBatches file skipErrors (toBatches k sapIds) st

def processFiles (skipErrors : Bool) (k : Nat) :
    List String → DrvState → DrvState
  | [], st => st
  | f :: fs, st =>
    let r := processOneFile skipErrors k f st
    if r.2 then r.1 else processFiles skipErrors k fs r.1

def processImageFolder (files : List String) (k : Nat) (skipErrors : Bool)
    (s3 : List ObjKey) (products : List Product) : DrvState :=
  processFiles skipErrors k (files.filter isSupportedImageFormat)
    ⟨⟨0, 0, 0, 0, []⟩, s3, products, 0, 0⟩

/-- The C5 scenario: the three files of the spec's example, concurrency 2,
and a backend carrying products for SAP 1, 2 and 3 (so every valid identifier
is accepted). -/
def runC5 : DrvState :=
  processImageFolder ["1-2.png", "bad.png", "3.jpg"] 2 true []
    [⟨0, 1, none⟩, ⟨1, 2, none⟩, ⟨2, 3, none⟩]

/-- **C5** counterexample: on the spec's own directory the driver's report has
`successful = 3`, not `2` — `results.successful` counts upload calls (one per
identifier: two for `1-2.png`, one for `3.jpg`), not files. -/
theorem batch_report_counterexample :
    runC5.results.successful = 3 ∧ runC5.results.successful ≠ 2 := by decide

/-- **C5** (amended): over `["1-2.png", "bad.png", "3.jpg"]` with concurrency
limit 2 and a backend accepting every valid identifier, the report states
attempted = 3, successful = 3 (counting upload calls, one per identifier),
failed = 0, skipped = 1, and exactly 3 identifier associations are created on
the backend. -/
theorem batch_report_counts :
    runC5.results = ⟨3, 3, 0, 1, []⟩ ∧ runC5.updateCount = 3 := by decide

/-! ### The driver's concurrency window (C4)

```js
const uploadPromises = sapIds.map(sapId => uploadImageForSap(imagePath, sapId));
for (let i = 0; i < uploadPromises.length; i += concurrent) {
    const batch = uploadPromises.slice(i, i + concurrent);
    const batchResults = await Promise.all(batch);
    ...
}
```

JavaScript evaluates `sapIds.map(...)` synchronously: each call of the async
`uploadImageForSap` runs its body up to the first `await`, which issues the
HTTP request — so every upload is started during the `map`, before the loop's
first `await Promise.all`.  Since the event loop is not yielded between the
`map` iterations, no completion can be observed before the first `await`:
every start event precedes every finish event.  The trace below renders that
semantics: `n` starts (one per SAP id, in order), then the finishes as the
windowed awaits observe them. -/

inductive UpEv where
  | start (i : Nat)
  | finish (i : Nat)
deriving DecidableEq

def mapStarts (n : Nat) : List UpEv := (List.range n).map UpEv.start

def windowFinishes (k n : Nat) : List UpEv :=
  ((toBatches k (List.range n)).map (fun w => w.map UpEv.finish)).flatten

def fileUploadTrace (n k : Nat) : List UpEv :=
  mapStarts n ++ windowFinishes k n

/-- Running maximum of started-but-not-finished uploads along a trace. -/
def peakInFlight : Nat → List UpEv → Nat
  | cur, [] => cur
  | cur, UpEv.start _ :: t => max (cur + 1) (peakInFlight (cur + 1) t)
  | cur, UpEv.finish _ :: t => peakInFlight (cur - 1) t

def maxInFlight (t : List UpEv) : Nat := peakInFlight 0 t

/-- **C4**: the concurrency limit is not enforced.  For a file carrying four
SAP ids and `concurrent = 3`, all four uploads are in flight at once — the
windowed `Promise.all` loop only staggers the awaiting, not the starting, of
the requests. -/
theorem batch_concurrency_unbounded :
    maxInFlight (fileUploadTrace 4 3) = 4 ∧
    ¬maxInFlight (fileUploadTrace 4 3) ≤ 3 := by decide

end CatalogApp
